import Mathlib

/-!
Verification of the anti-nuke / vanity-guard subsystem of the moderation bot
(`bot/cogs/antinuke.py`), as a shallow embedding in Lean.

Time is modelled as `ℚ` (seconds).  Python `datetime` values become rationals,
`deque` windows become front-first lists, and dict-of-dict tracker storage
becomes a total map with a default of `[]`, mirroring `defaultdict(deque)`.

External-library call semantics that the source relies on are modelled
faithfully to the `discord` library it imports; each such point is documented
at the definition that uses it.
-/

namespace AntiNuke

/-! ## Action rate tracking (`ActionTracker`, antinuke.py lines 187-207)

`ActionTracker._data` is `defaultdict → defaultdict → defaultdict(deque)`
keyed by guild id, user id and action name.  Each deque holds event
timestamps in arrival order, oldest first.
-/

/-- One key of the tracker: `(guild_id, user_id, action)`. -/
structure TrackerKey where
  guildId : Nat
  userId : Nat
  action : String
deriving DecidableEq

/-- Python `while d and d[0] < cutoff: d.popleft()` — drop from the front while the
head is strictly older than the cutoff. -/
def trimWindow (cutoff : ℚ) (d : List ℚ) : List ℚ :=
  d.dropWhile (fun x => decide (x < cutoff))

/-- Body of `ActionTracker.record` on a single key's deque:
append `now`, trim entries older than `now - keep_seconds`, and return the
trimmed deque together with its length (the value `record` returns). -/
def recordWindow (d : List ℚ) (now keep : ℚ) : List ℚ × Nat :=
  let d2 := trimWindow (now - keep) (d ++ [now])
  (d2, d2.length)

/-- Body of `ActionTracker.count` on a single key's deque: trim entries older
than `now - within` (the code trims in place), and return the trimmed deque
together with its length. -/
def countWindow (d : List ℚ) (now within : ℚ) : List ℚ × Nat :=
  let d2 := trimWindow (now - within) d
  (d2, d2.length)

/-- The tracker state: a total map from keys to timestamp windows,
defaulting to the empty window (`defaultdict` semantics). -/
def Tracker := TrackerKey → List ℚ

/-- A fresh tracker: every key maps to an empty deque. -/
def Tracker.empty : Tracker := fun _ => []

/-- Source `ActionTracker.record(guild_id, user_id, action, keep_seconds)` at time
`now`: updates the key's window and returns the new count. -/
def Tracker.record (tr : Tracker) (k : TrackerKey) (now keep : ℚ) :
    Tracker × Nat :=
  let r := recordWindow (tr k) now keep
  (fun k' => if k' = k then r.1 else tr k', r.2)

/-- Source `ActionTracker.count(guild_id, user_id, action, within)` at time `now`:
trims the key's window in place and returns the count. -/
def Tracker.count (tr : Tracker) (k : TrackerKey) (now within : ℚ) :
    Tracker × Nat :=
  let r := countWindow (tr k) now within
  (fun k' => if k' = k then r.1 else tr k', r.2)

/-- Replaying a sequence of `record` calls (one fixed key, given event times)
against a tracker. -/
def runRecords (k : TrackerKey) (keep : ℚ) : Tracker → List ℚ → Tracker
  | tr, [] => tr
  | tr, t :: ts => runRecords k keep (tr.record k t keep).1 ts

/-! ### Window lemmas -/

lemma dropWhile_eq_self_of_not {p : ℚ → Bool} :
    ∀ {l : List ℚ}, (∀ x ∈ l, p x = false) → l.dropWhile p = l
  | [], _ => rfl
  | a :: t, h => by
    simp only [List.dropWhile, h a (by simp)]

lemma dropWhile_eq_nil_of_all {p : ℚ → Bool} :
    ∀ {l : List ℚ}, (∀ x ∈ l, p x = true) → l.dropWhile p = []
  | [], _ => rfl
  | a :: t, h => by
    simp only [List.dropWhile, h a (by simp)]
    exact dropWhile_eq_nil_of_all (fun x hx => h x (by simp [hx]))

/-- On a sorted (non-decreasing) list, front-trimming below a cutoff agrees
with filtering to the elements at or above the cutoff. -/
lemma trimWindow_sorted_eq_filter {c : ℚ} :
    ∀ {l : List ℚ}, l.Sorted (· ≤ ·) →
      trimWindow c l = l.filter (fun x => decide (c ≤ x))
  | [], _ => rfl
  | a :: t, h => by
    rcases List.sorted_cons.mp h with ⟨ha, ht⟩
    by_cases hac : a < c
    · have : trimWindow c t = t.filter (fun x => decide (c ≤ x)) :=
        trimWindow_sorted_eq_filter ht
      simp [trimWindow, List.dropWhile, hac, not_le.mpr hac]
      simpa [trimWindow] using this
    · have hge : c ≤ a := not_lt.mp hac
      have hall : ∀ x ∈ t, (fun x => decide (c ≤ x)) x = true := by
        intro x hx
        simpa using le_trans hge (ha x hx)
      simp [trimWindow, List.dropWhile, hac, hge, List.filter_eq_self.mpr hall]

lemma trimWindow_subset {c : ℚ} {l : List ℚ} :
    ∀ x ∈ trimWindow c l, x ∈ l := by
  intro x hx
  exact (List.dropWhile_sublist _).subset hx

/-- After replaying record calls whose timestamps are all bounded by `L`,
every timestamp retained in any key's window is bounded by `L`
(timestamps only ever come from the calls). -/
lemma runRecords_window_le (k : TrackerKey) (keep L : ℚ) :
    ∀ (times : List ℚ) (tr : Tracker),
      (∀ x ∈ times, x ≤ L) → (∀ k', ∀ x ∈ tr k', x ≤ L) →
      ∀ k', ∀ x ∈ runRecords k keep tr times k', x ≤ L
  | [], tr, _, htr => htr
  | t :: ts, tr, hts, htr => by
    refine runRecords_window_le k keep L ts _ (fun x hx => hts x (by simp [hx])) ?_
    intro k' x hx
    by_cases hk : k' = k
    · rw [hk] at hx
      have hx' : x ∈ trimWindow (t - keep) (tr k ++ [t]) := by
        simpa [Tracker.record, recordWindow] using hx
      rcases List.mem_append.mp (trimWindow_subset x hx') with h | h
      · exact htr k x h
      · simp at h; subst h; exact hts x (by simp)
    · have hx' : x ∈ tr k' := by
        simpa [Tracker.record, hk] using hx
      exact htr k' x hx'

/-! ## Guild configuration (`AntiNukeConfigStore.g`, `is_whitelisted`,
`get_threshold`, antinuke.py lines 152-164 and 298-305) -/

/-- A per-action threshold (`Threshold` dataclass, lines 89-92). -/
structure Threshold where
  count : Nat
  interval : Nat
deriving DecidableEq

/-- Punishment modes (`"jail" | "strip" | "ban"`). -/
inductive PunishMode
  | jail
  | strip
  | ban
deriving DecidableEq

/-- The fields of a guild's config record that the engine reads. -/
structure GuildCfg where
  enabled : Bool
  whitelist : List Nat
  admins : List Nat
  punishment : PunishMode
deriving DecidableEq

/-- Source `AntiNuke.is_whitelisted`: member of `whitelist` OR of `admins`
(wladmins are implicitly exempt), lines 303-305. -/
def isWhitelisted (cfg : GuildCfg) (uid : Nat) : Bool :=
  cfg.whitelist.contains uid || cfg.admins.contains uid

/-! ## Punishment (`AntiNuke.punish`, antinuke.py lines 308-360)

External mutation calls are recorded as a list of attempted `Mutation`s in
program order; whether an attempt succeeds is supplied by an outcome oracle
(`ExtOutcomes`) exactly where the source branches on success
(`guild.ban` inside `try` with early return; `guild.create_role` whose
failure sets `jailed = None`).  Failures of the other calls are swallowed
without branching (`except: pass` / `except: continue`), so they need no
oracle. -/

/-- Channel kinds, as decided by the `isinstance` checks against
`TEXT_CH_TYPES` / `VOICE_CH_TYPES` / `CAT_CH_TYPES` (lines 34-39). -/
inductive ChannelKind
  | text
  | voice
  | category
  | other
deriving DecidableEq

structure Channel where
  id : Nat
  kind : ChannelKind
deriving DecidableEq

/-- A role held by a member: its hierarchy position and whether it is the
guild's default (`@everyone`) role. -/
structure MemberRole where
  pos : Int
  isDefault : Bool
deriving DecidableEq

/-- A guild member, as `punish` consumes it: id, top-role position, roles. -/
structure Member where
  id : Nat
  topRolePos : Int
  roles : List MemberRole
deriving DecidableEq

/-- The guild facts `punish` reads: owner id, the bot's top-role position
(`guild.me.top_role`), channel list and whether a `"Jailed"` role exists. -/
structure GuildEnv where
  ownerId : Nat
  botTopPos : Int
  channels : List Channel
  jailedRoleExists : Bool

/-- Success oracle for the external calls `punish` branches on. -/
structure ExtOutcomes where
  banOk : Bool
  createRoleOk : Bool

/-- An attempted external mutation call. -/
inductive Mutation
  | banCall (target : Nat)
  | removeRolesCall (target : Nat) (roles : List Int)
  | createRoleCall
  | addRoleCall (target : Nat)
  | channelPermEdit (chan : Nat)
deriving DecidableEq

/-- The final log line `punish` emits on the path taken. -/
inductive PunishLog
  | whitelistedAction
  | ownerAction
  | insufficientHierarchy
  | bannedAttacker
  | attackerJailed
deriving DecidableEq

/-- The strip step (lines 333-338): remove every role that is not the
default role and sits strictly below the bot's top role; a single
`remove_roles` call is attempted only when that set is non-empty. -/
def stripMutations (g : GuildEnv) (att : Member) : List Mutation :=
  let toRemove := att.roles.filter
    (fun r => !r.isDefault && decide (r.pos < g.botTopPos))
  if toRemove.isEmpty then [] else
    [.removeRolesCall att.id (toRemove.map (·.pos))]

/-- The per-channel permission edits of the jail step (lines 353-358):
one `set_permissions` attempt for every text or voice channel. -/
def jailChannelEdits (g : GuildEnv) : List Mutation :=
  (g.channels.filter (fun c =>
    match c.kind with
    | .text => true
    | .voice => true
    | _ => false)).map (fun c => .channelPermEdit c.id)

/-- Source `AntiNuke.punish(guild, attacker, reason)`: the ordered list of external
mutation attempts and the final log emitted. -/
def punish (cfg : GuildCfg) (g : GuildEnv) (att : Member) (ext : ExtOutcomes) :
    List Mutation × PunishLog :=
  if isWhitelisted cfg att.id then ([], .whitelistedAction)
  else if att.id = g.ownerId then ([], .ownerAction)
  else if g.botTopPos ≤ att.topRolePos then ([], .insufficientHierarchy)
  else if cfg.punishment = .ban && ext.banOk then
    ([.banCall att.id], .bannedAttacker)
  else
    let banPart : List Mutation :=
      if cfg.punishment = .ban then [.banCall att.id] else []
    let createPart : List Mutation :=
      if g.jailedRoleExists then [] else [.createRoleCall]
    let haveJailed : Bool := g.jailedRoleExists || ext.createRoleOk
    let jailPart : List Mutation :=
      if haveJailed then .addRoleCall att.id :: jailChannelEdits g else []
    (banPart ++ stripMutations g att ++ createPart ++ jailPart,
     .attackerJailed)

/-! ## Detection engine (`AntiNuke._maybe_flag` and the event listeners,
antinuke.py lines 811-876)

`_maybe_flag(guild, actor, key, human)`:
- `actor is None` → log "Actor unknown", return (no tracking, no punish);
- whitelisted/wladmin actor → log "(whitelisted)", return;
- otherwise `record` into the tracker and log the observation; if the
  returned count reaches the threshold (`n >= t.count`), invoke `punish`.

Note the source has **no owner check here**: ownership is only consulted
inside `punish` itself. -/

/-- Observable effects of one engine step: log emissions, and whether the
punish step was invoked (the call `self.punish(...)`). -/
inductive Effect
  | logActorUnknown
  | logWhitelisted (actor : Nat)
  | logObserved (actor n need : Nat)
  | punishInvoke (actor : Nat)
deriving DecidableEq

/-- Source `AntiNuke._maybe_flag` at time `now`, for guild `gid`, attributed actor
`actor` (`none` = unknown) and action key `key`, with the guild's configured
threshold `t` for that key. Returns the updated tracker and the effects. -/
def maybeFlag (cfg : GuildCfg) (t : Threshold) (tr : Tracker) (gid : Nat)
    (actor : Option Nat) (key : String) (now : ℚ) : Tracker × List Effect :=
  match actor with
  | none => (tr, [.logActorUnknown])
  | some a =>
    if isWhitelisted cfg a then (tr, [.logWhitelisted a])
    else
      let r := tr.record ⟨gid, a, key⟩ now (t.interval : ℚ)
      (r.1, [.logObserved a r.2 t.count] ++
        (if t.count ≤ r.2 then [.punishInvoke a] else []))

/-- The shared shape of `on_guild_channel_delete` / `on_guild_channel_create`
/ `on_guild_role_delete` / `on_member_ban` (lines 824-853): gate on
`enabled`, attribute, then always hand the (possibly unknown) actor to
`_maybe_flag`. -/
def handleMutationEvent (cfg : GuildCfg) (t : Threshold) (tr : Tracker)
    (gid : Nat) (actor : Option Nat) (key : String) (now : ℚ) :
    Tracker × List Effect :=
  if cfg.enabled then maybeFlag cfg t tr gid actor key now else (tr, [])

/-- Listener `on_webhooks_update` (lines 869-876): gate on `enabled`, attribute, and
call `_maybe_flag` **only when an actor was found** (`if actor:`); an
unknown actor produces no call and hence no effect at all. -/
def handleWebhooksUpdate (cfg : GuildCfg) (t : Threshold) (tr : Tracker)
    (gid : Nat) (actor : Option Nat) (now : ℚ) : Tracker × List Effect :=
  if cfg.enabled then
    match actor with
    | some a => maybeFlag cfg t tr gid (some a) "webhook_create" now
    | none => (tr, [])
  else (tr, [])

/-- Listener `on_member_remove` (lines 855-867): gate on `enabled`, scan the audit log
for a matching kick entry; when none matches (unknown actor) the handler
falls through and does nothing. -/
def handleMemberRemove (cfg : GuildCfg) (t : Threshold) (tr : Tracker)
    (gid : Nat) (actor : Option Nat) (now : ℚ) : Tracker × List Effect :=
  if cfg.enabled then
    match actor with
    | some a => maybeFlag cfg t tr gid (some a) "kick" now
    | none => (tr, [])
  else (tr, [])

/-- Replaying a sequence of attributed events for one actor/key through
`_maybe_flag`, collecting the effects of each event. -/
def runEvents (cfg : GuildCfg) (t : Threshold) (gid a : Nat) (key : String) :
    Tracker → List ℚ → Tracker × List (List Effect)
  | tr, [] => (tr, [])
  | tr, now :: rest =>
    let r := maybeFlag cfg t tr gid (some a) key now
    let rec' := runEvents cfg t gid a key r.1 rest
    (rec'.1, r.2 :: rec'.2)

/-- The effects `_maybe_flag` emits for the `m`-th recorded event of a
non-exempt actor (count reported as `m`), with the punish invocation exactly
when the count reaches the threshold `need`. -/
def expectedEffects (a need m : Nat) : List Effect :=
  [.logObserved a m need] ++ (if need ≤ m then [.punishInvoke a] else [])

/-- Replaying attributed events of one non-exempt actor whose timestamps are
pairwise within the threshold interval: no trimming ever occurs, so the
`m`-th event is recorded with count `m` and the effects are exactly
`expectedEffects` at successive counts (continuing from a prior window
`acc` for that key). -/
lemma runEvents_effects (cfg : GuildCfg) (t : Threshold) (gid a : Nat)
    (key : String) (hwl : isWhitelisted cfg a = false) :
    ∀ (times : List ℚ) (tr : Tracker) (acc : List ℚ),
      tr ⟨gid, a, key⟩ = acc →
      (∀ x ∈ acc ++ times, ∀ y ∈ acc ++ times, x - y ≤ (t.interval : ℚ)) →
      (runEvents cfg t gid a key tr times).2 =
        (List.range times.length).map
          (fun j => expectedEffects a t.count (acc.length + j + 1))
  | [], tr, acc, _, _ => by simp [runEvents]
  | now :: rest, tr, acc, hacc, hwithin => by
    have htrim : trimWindow (now - (t.interval : ℚ)) (acc ++ [now])
        = acc ++ [now] := by
      apply dropWhile_eq_self_of_not
      intro x hx
      simp only [decide_eq_false_iff_not, not_lt]
      rcases List.mem_append.mp hx with h | h
      · have hxy := hwithin now (by simp) x (by simp [h])
        linarith
      · simp only [List.mem_singleton] at h
        subst h
        have : (0 : ℚ) ≤ (t.interval : ℚ) := Nat.cast_nonneg _
        linarith
    have hrec1 : (Tracker.record tr ⟨gid, a, key⟩ now (t.interval : ℚ)).1
        ⟨gid, a, key⟩ = acc ++ [now] := by
      simp [Tracker.record, recordWindow, hacc, htrim]
    have hrec2 : (Tracker.record tr ⟨gid, a, key⟩ now (t.interval : ℚ)).2
        = acc.length + 1 := by
      simp [Tracker.record, recordWindow, hacc, htrim]
    have hperm : ∀ x : ℚ, x ∈ (acc ++ [now]) ++ rest ↔ x ∈ acc ++ now :: rest := by
      intro x
      simp only [List.mem_append, List.mem_singleton, List.mem_cons]
      tauto
    have IH := runEvents_effects cfg t gid a key hwl rest
      (Tracker.record tr ⟨gid, a, key⟩ now (t.interval : ℚ)).1 (acc ++ [now])
      hrec1
      (fun x hx y hy => hwithin x ((hperm x).mp hx) y ((hperm y).mp hy))
    simp only [runEvents, maybeFlag, hwl, Bool.false_eq_true, if_false]
    rw [List.length_cons, List.range_succ_eq_map, List.map_cons, List.map_map]
    congr 1
    · simp [expectedEffects, hrec2]
    · rw [IH]
      congr 1
      funext j
      simp only [Function.comp, List.length_append, List.length_singleton]
      congr 2
      omega

/-! ## Vanity guard: burst reclaim (`AntiNuke._burst_reclaim`,
antinuke.py lines 395-409)

The loop carries a current delay (`delay = 0.05`, then
`delay = min(delay * 1.5, 0.25)` after each failed attempt) and sleeps that
delay between attempts; since the delay and elapsed time before the `i`-th
attempt are functions of `i` alone, they are embedded as such.  Attempt
outcomes (`set_vanity_code` returning `True`/`False`) are an oracle indexed
by the attempt number; this idealises the attempts as instantaneous, with
time advanced by the sleeps. -/

/-- The backoff delay slept after the `i`-th failed attempt:
starts at 50 ms, multiplied by 1.5 and capped at 250 ms. -/
def vanityDelay : Nat → ℚ
  | 0 => 1 / 20
  | n + 1 => min (vanityDelay n * (3 / 2)) (1 / 4)

/-- The elapsed time at which the `i`-th attempt begins (the sum of all
earlier sleeps; the first attempt begins immediately). -/
def attemptTime : Nat → ℚ
  | 0 => 0
  | n + 1 => attemptTime n + vanityDelay n

lemma vanityDelay_lb : ∀ n, 1 / 20 ≤ vanityDelay n
  | 0 => le_refl _
  | n + 1 => by
    have h := vanityDelay_lb n
    simp only [vanityDelay, le_min_iff]
    constructor
    · linarith
    · norm_num

lemma vanityDelay_ub : ∀ n, vanityDelay n ≤ 1 / 4
  | 0 => by norm_num [vanityDelay]
  | n + 1 => min_le_right _ _

lemma vanityDelay_mono (n : Nat) : vanityDelay n ≤ vanityDelay (n + 1) := by
  have h1 := vanityDelay_lb n
  have h2 := vanityDelay_ub n
  simp only [vanityDelay, le_min_iff]
  constructor
  · nlinarith
  · exact h2

lemma attemptTime_lb (n : Nat) : (n : ℚ) / 20 ≤ attemptTime n := by
  induction n with
  | zero => simp [attemptTime]
  | succ m ih =>
    have h := vanityDelay_lb m
    simp only [attemptTime]
    push_cast
    linarith

lemma attemptTime_mono {i j : Nat} (h : i ≤ j) : attemptTime i ≤ attemptTime j := by
  induction j with
  | zero =>
    have hi : i = 0 := Nat.le_zero.mp h
    subst hi; exact le_refl _
  | succ m ih =>
    by_cases h' : i ≤ m
    · have h1 := ih h'
      have hd : (0 : ℚ) ≤ vanityDelay m := le_trans (by norm_num) (vanityDelay_lb m)
      simp only [attemptTime]
      linarith
    · have hi : i = m + 1 := by omega
      subst hi; exact le_refl _

/-- Source `AntiNuke._burst_reclaim(guild, want, seconds)` from attempt `i` onward:
while the deadline has not passed, attempt once (`set_vanity_code`); return
`true` on the first success, sleep and retry on failure; return `false`
once the deadline has elapsed. -/
def burstReclaimFrom (outcomes : Nat → Bool) (seconds : ℚ) (i : Nat) : Bool :=
  if h : attemptTime i < seconds then
    if outcomes i then true
    else burstReclaimFrom outcomes seconds (i + 1)
  else false
termination_by (⌈seconds * 20⌉₊ + 1) - i
decreasing_by
  have hlb := attemptTime_lb i
  have h20 : (i : ℚ) < seconds * 20 := by
    have : (i : ℚ) / 20 < seconds := lt_of_le_of_lt hlb h
    linarith
  have hceil : (i : ℚ) < (⌈seconds * 20⌉₊ : ℚ) :=
    lt_of_lt_of_le h20 (Nat.le_ceil _)
  have : i < ⌈seconds * 20⌉₊ := by exact_mod_cast hceil
  omega

/-- Source `AntiNuke._burst_reclaim` itself: the loop starts at the first attempt. -/
def burstReclaim (outcomes : Nat → Bool) (seconds : ℚ) : Bool :=
  burstReclaimFrom outcomes seconds 0

lemma burstReclaimFrom_true_exists (outcomes : Nat → Bool) (seconds : ℚ) :
    ∀ (n i : Nat), (⌈seconds * 20⌉₊ + 1) - i ≤ n →
      burstReclaimFrom outcomes seconds i = true →
      ∃ j, i ≤ j ∧ attemptTime j < seconds ∧ outcomes j = true := by
  intro n
  induction n with
  | zero =>
    intro i hn htrue
    exfalso
    have hi : ⌈seconds * 20⌉₊ + 1 ≤ i := by omega
    have hcast : ((⌈seconds * 20⌉₊ : Nat) : ℚ) + 1 ≤ (i : ℚ) := by
      exact_mod_cast hi
    have hle : seconds * 20 ≤ (⌈seconds * 20⌉₊ : ℚ) := Nat.le_ceil _
    have hlb := attemptTime_lb i
    have hge : ¬ attemptTime i < seconds := by
      push_neg
      have : seconds ≤ (i : ℚ) / 20 := by linarith
      linarith
    rw [burstReclaimFrom, dif_neg hge] at htrue
    exact Bool.false_ne_true htrue
  | succ m ih =>
    intro i hn htrue
    rw [burstReclaimFrom] at htrue
    by_cases h : attemptTime i < seconds
    · rw [dif_pos h] at htrue
      by_cases ho : outcomes i = true
      · exact ⟨i, le_refl _, h, ho⟩
      · rw [if_neg ho] at htrue
        have hmeas : (⌈seconds * 20⌉₊ + 1) - (i + 1) ≤ m := by
          have hlb := attemptTime_lb i
          have h20 : (i : ℚ) < seconds * 20 := by
            have : (i : ℚ) / 20 < seconds := lt_of_le_of_lt hlb h
            linarith
          have hceil : (i : ℚ) < (⌈seconds * 20⌉₊ : ℚ) :=
            lt_of_lt_of_le h20 (Nat.le_ceil _)
          have hlt : i < ⌈seconds * 20⌉₊ := by exact_mod_cast hceil
          omega
        obtain ⟨j, hij, hj, hoj⟩ := ih (i + 1) hmeas htrue
        exact ⟨j, le_trans (Nat.le_succ _) hij, hj, hoj⟩
    · rw [dif_neg h] at htrue
      exact absurd htrue Bool.false_ne_true

lemma burstReclaimFrom_true_of_exists (outcomes : Nat → Bool) (seconds : ℚ) :
    ∀ (d i j : Nat), j - i ≤ d → i ≤ j → attemptTime j < seconds →
      outcomes j = true → burstReclaimFrom outcomes seconds i = true := by
  intro d
  induction d with
  | zero =>
    intro i j hd hij hj ho
    have hji : j = i := by omega
    subst hji
    rw [burstReclaimFrom, dif_pos hj, if_pos ho]
  | succ m ih =>
    intro i j hd hij hj ho
    have hi : attemptTime i < seconds := lt_of_le_of_lt (attemptTime_mono hij) hj
    rw [burstReclaimFrom, dif_pos hi]
    by_cases hoi : outcomes i = true
    · rw [if_pos hoi]
    · rw [if_neg hoi]
      have hne : i ≠ j := fun he => hoi (he ▸ ho)
      exact ih (i + 1) j (by omega) (by omega) hj ho

/-! ## Vanity sentinel loop (`AntiNuke._vanity_sentinel_loop`,
antinuke.py lines 411-443)

The loop state that controls the adaptive interval is the single variable
`elevated_until : Optional[datetime]` (initially `None`, never reset).  One
exception-free iteration is summarised by: whether a drift was detected
(`current and current != want`), the time at which `elevated_until` is set
on drift (`utcnow()` right after the reclaim attempt, line 432), and the
time at which the interval decision is made (`now = utcnow()`, line 436). -/

structure SentinelIter where
  drift : Bool
  tMark : ℚ
  tSleep : ℚ

/-- The `elevated_until` state after one iteration: a detected drift sets it
to 20 seconds past the post-reclaim timestamp; otherwise it is unchanged. -/
def stepElevated (st : Option ℚ) (it : SentinelIter) : Option ℚ :=
  if it.drift then some (it.tMark + 20) else st

/-- The duration of the sleep ending an iteration
(`await asyncio.sleep(0.25 if fast else 2.0)` where
`fast = elevated_until and now < elevated_until`). -/
def sentinelSleep (st : Option ℚ) (it : SentinelIter) : ℚ :=
  match stepElevated st it with
  | some u => if it.tSleep < u then 1 / 4 else 2
  | none => 2

/-- The `elevated_until` state after a sequence of iterations. -/
def elevatedAfter (st : Option ℚ) (its : List SentinelIter) : Option ℚ :=
  its.foldl stepElevated st

lemma elevatedAfter_no_drift (st : Option ℚ) :
    ∀ (its : List SentinelIter), (∀ x ∈ its, x.drift = false) →
      elevatedAfter st its = st
  | [], _ => rfl
  | it :: rest, h => by
    have h0 : it.drift = false := h it (by simp)
    have hrest := elevatedAfter_no_drift st rest (fun x hx => h x (by simp [hx]))
    simp only [elevatedAfter, List.foldl_cons, stepElevated, h0, if_false]
    exact elevatedAfter_no_drift st rest (fun x hx => h x (by simp [hx]))

/-! ## Lockdown (`AntiNuke.lock` / `AntiNuke.unlock`,
antinuke.py lines 648-748)

A channel's default-role (`@everyone`) permission overwrite is a record of
tri-state values (`Some true` = allow, `Some false` = deny, `none` =
inherit); only the fields this module touches are modelled.

`discord`-library semantics relied on here: `set_permissions(target,
**kwargs)` builds a fresh `PermissionOverwrite(**kwargs)` — every field not
named in the call becomes "inherit" — and replaces the target's whole
overwrite with it; `set_permissions(target, overwrite=ow)` replaces the
whole overwrite with `ow`; `overwrites_for` reads the current overwrite. -/

structure Overwrite where
  viewChannel : Option Bool
  sendMessages : Option Bool
  connect : Option Bool
  addReactions : Option Bool
  speak : Option Bool
  stream : Option Bool
deriving DecidableEq

/-- The fields captured into `state["lock"]["channels"][id]` at lock time:
`{"view": ow.view_channel, "send": ow.send_messages, "connect": ow.connect}`
(lines 679-684) — only these three, for every channel kind. -/
structure Snapshot where
  view : Option Bool
  send : Option Bool
  connect : Option Bool
deriving DecidableEq

def snapshotOf (ow : Overwrite) : Snapshot :=
  { view := ow.viewChannel, send := ow.sendMessages, connect := ow.connect }

/-- The overwrite a channel carries after lock's `set_permissions` call
(kwargs form, lines 686-691): the named fields are denied, all other fields
of the replaced overwrite become "inherit". -/
def lockOverwrite : ChannelKind → Overwrite
  | .text =>
    { viewChannel := some false, sendMessages := some false,
      addReactions := some false, connect := none, speak := none,
      stream := none }
  | .voice =>
    { viewChannel := some false, connect := some false, speak := some false,
      stream := some false, sendMessages := none, addReactions := none }
  | .category =>
    { viewChannel := some false, sendMessages := some false,
      connect := some false, addReactions := none, speak := none,
      stream := none }
  | .other =>
    { viewChannel := none, sendMessages := none, connect := none,
      addReactions := none, speak := none, stream := none }

/-- One channel's part of `lock`: channels that are not text/voice/category
are skipped by the `isinstance` check (no snapshot entry, no edit);
otherwise the three tri-states are captured and the deny overwrite is
applied. -/
def lockChannel (k : ChannelKind) (ow : Overwrite) :
    Option (Snapshot × Overwrite) :=
  match k with
  | .other => none
  | k => some (snapshotOf ow, lockOverwrite k)

/-- Source `clamp_bool` (lines 19-20): `None` stays `None`, booleans stay
themselves. -/
def clampBool : Option Bool → Option Bool
  | none => none
  | some b => some b

/-- One channel's part of `unlock` (lines 731-738): read the current
overwrite, restore `view_channel` always, `send_messages` for text and
category channels, `connect` for voice and category channels, then replace
the channel's overwrite with the result. -/
def unlockChannel (k : ChannelKind) (current : Overwrite) (snap : Snapshot) :
    Overwrite :=
  let ow1 := { current with viewChannel := clampBool snap.view }
  let ow2 :=
    if k = ChannelKind.text ∨ k = ChannelKind.category then
      { ow1 with sendMessages := clampBool snap.send }
    else ow1
  if k = ChannelKind.voice ∨ k = ChannelKind.category then
    { ow2 with connect := clampBool snap.connect }
  else ow2

/-- The lock-then-unlock round trip on one channel (no interference in
between, channel still existing at unlock time): lock captures the snapshot
and applies the deny overwrite; unlock restores from the snapshot on top of
the post-lock overwrite. -/
def lockUnlock (k : ChannelKind) (ow : Overwrite) : Option Overwrite :=
  (lockChannel k ow).map (fun p => unlockChannel k p.2 p.1)

end AntiNuke

/-- **C9** (part): `record` appends the current time, discards from the front
every timestamp older than `window_seconds` before now, and returns the
resulting window length; and a `count` query issued more than `w` seconds
after the last recorded event returns 0 (expiry invariant). -/
theorem antinuke_tracker_record_count_spec :
    (∀ (d : List ℚ) (now keep : ℚ), d.Sorted (· ≤ ·) → (∀ x ∈ d, x ≤ now) →
      AntiNuke.recordWindow d now keep =
        ((d ++ [now]).filter (fun x => decide (now - keep ≤ x)),
         ((d ++ [now]).filter (fun x => decide (now - keep ≤ x))).length)) ∧
    (∀ (k : AntiNuke.TrackerKey) (w L now : ℚ) (times : List ℚ),
      (∀ x ∈ times, x ≤ L) → L + w < now →
      ((AntiNuke.runRecords k w AntiNuke.Tracker.empty times).count k now w).2
        = 0) := by
  constructor
  · intro d now keep hs hle
    have hsorted : (d ++ [now]).Sorted (· ≤ ·) := by
      apply List.pairwise_append.mpr
      exact ⟨hs, List.sorted_singleton _, fun a ha b hb => by
        simp at hb; subst hb; exact hle a ha⟩
    simp [AntiNuke.recordWindow,
      AntiNuke.trimWindow_sorted_eq_filter hsorted]
  · intro k w L now times hle hlt
    have hwin : ∀ x ∈ AntiNuke.runRecords k w AntiNuke.Tracker.empty times k,
        x ≤ L := by
      intro x hx
      exact AntiNuke.runRecords_window_le k w L times AntiNuke.Tracker.empty
        hle (fun k' x hx => by simp [AntiNuke.Tracker.empty] at hx) k x hx
    have hall : ∀ x ∈ AntiNuke.runRecords k w AntiNuke.Tracker.empty times k,
        (fun x => decide (x < now - w)) x = true := by
      intro x hx
      have : x ≤ L := hwin x hx
      simp only [decide_eq_true_eq]
      linarith
    simp [AntiNuke.Tracker.count, AntiNuke.countWindow, AntiNuke.trimWindow,
      AntiNuke.dropWhile_eq_nil_of_all hall]

/-- Witness for C9 at a concrete input. -/
theorem antinuke_tracker_record_count_spec_witness :
    AntiNuke.recordWindow [1, 2] 5 10 =
      (([1, 2] ++ [5]).filter (fun x => decide ((5 : ℚ) - 10 ≤ x)),
       (([1, 2] ++ [5]).filter (fun x => decide ((5 : ℚ) - 10 ≤ x))).length) ∧
    ((AntiNuke.runRecords ⟨1, 2, "ban"⟩ 3 AntiNuke.Tracker.empty
        [0, 1]).count ⟨1, 2, "ban"⟩ 10 3).2 = 0 := by
  constructor
  · exact antinuke_tracker_record_count_spec.1 [1, 2] 5 10
      (by norm_num) (by intro x hx; simp at hx; rcases hx with h | h <;> norm_num [h])
  · exact antinuke_tracker_record_count_spec.2 ⟨1, 2, "ban"⟩ 3 1 10 [0, 1]
      (by intro x hx; simp at hx; rcases hx with h | h <;> simp [h])
      (by norm_num)

/-- **C3**: `punish` attempts no external mutation when the attacker is
whitelisted, when the attacker is the guild owner, or when the bot's top
role is not strictly above the attacker's top role; the three guards are
checked in that order and each short-circuits with only a log emission. -/
theorem antinuke_punish_guards (cfg : AntiNuke.GuildCfg)
    (g : AntiNuke.GuildEnv) (att : AntiNuke.Member)
    (ext : AntiNuke.ExtOutcomes) :
    (AntiNuke.isWhitelisted cfg att.id = true →
      AntiNuke.punish cfg g att ext = ([], .whitelistedAction)) ∧
    (AntiNuke.isWhitelisted cfg att.id = false → att.id = g.ownerId →
      AntiNuke.punish cfg g att ext = ([], .ownerAction)) ∧
    (AntiNuke.isWhitelisted cfg att.id = false → att.id ≠ g.ownerId →
      g.botTopPos ≤ att.topRolePos →
      AntiNuke.punish cfg g att ext = ([], .insufficientHierarchy)) := by
  refine ⟨fun h1 => ?_, fun h1 h2 => ?_, fun h1 h2 h3 => ?_⟩ <;>
    simp [AntiNuke.punish, h1]
  · simp [h2]
  · simp [h2, h3]

/-- Witness for C3 at concrete inputs: a whitelisted attacker, the guild
owner, and an attacker out-ranking the bot. -/
theorem antinuke_punish_guards_witness :
    AntiNuke.punish ⟨true, [5], [], .jail⟩ ⟨7, 10, [], false⟩ ⟨5, 3, []⟩
      ⟨true, true⟩ = ([], .whitelistedAction) ∧
    AntiNuke.punish ⟨true, [], [], .jail⟩ ⟨7, 10, [], false⟩ ⟨7, 3, []⟩
      ⟨true, true⟩ = ([], .ownerAction) ∧
    AntiNuke.punish ⟨true, [], [], .jail⟩ ⟨7, 10, [], false⟩ ⟨8, 12, []⟩
      ⟨true, true⟩ = ([], .insufficientHierarchy) :=
  ⟨(antinuke_punish_guards _ _ _ _).1 (by decide),
   (antinuke_punish_guards _ _ _ _).2.1 (by decide) (by decide),
   (antinuke_punish_guards _ _ _ _).2.2 (by decide) (by decide) (by decide)⟩

/-- **C4**: with punishment mode `ban` (guards passed), `punish` attempts the
ban first; on success it stops with the "banned" log and no strip/jail
mutations; on failure it absorbs the error and proceeds to strip the
attacker's roles and then jail them. -/
theorem antinuke_punish_ban_mode (cfg : AntiNuke.GuildCfg)
    (g : AntiNuke.GuildEnv) (att : AntiNuke.Member)
    (ext : AntiNuke.ExtOutcomes)
    (hwl : AntiNuke.isWhitelisted cfg att.id = false)
    (howner : att.id ≠ g.ownerId)
    (hhier : att.topRolePos < g.botTopPos)
    (hmode : cfg.punishment = .ban) :
    (ext.banOk = true →
      AntiNuke.punish cfg g att ext =
        ([.banCall att.id], .bannedAttacker)) ∧
    (ext.banOk = false →
      AntiNuke.punish cfg g att ext =
        (.banCall att.id ::
          (AntiNuke.stripMutations g att ++
           ((if g.jailedRoleExists then [] else [.createRoleCall]) ++
            (if g.jailedRoleExists || ext.createRoleOk then
              .addRoleCall att.id :: AntiNuke.jailChannelEdits g
             else []))),
         .attackerJailed)) := by
  have hh : ¬ g.botTopPos ≤ att.topRolePos := not_le.mpr hhier
  constructor
  · intro hb
    simp [AntiNuke.punish, hwl, howner, hh, hmode, hb]
  · intro hb
    simp [AntiNuke.punish, hwl, howner, hh, hmode, hb]

/-- Witness for C4 at a concrete input (both ban outcomes). -/
theorem antinuke_punish_ban_mode_witness :
    AntiNuke.punish ⟨true, [], [], .ban⟩ ⟨7, 10, [⟨1, .text⟩], true⟩
      ⟨8, 3, [⟨2, false⟩]⟩ ⟨true, true⟩ =
      ([.banCall 8], .bannedAttacker) ∧
    AntiNuke.punish ⟨true, [], [], .ban⟩ ⟨7, 10, [⟨1, .text⟩], true⟩
      ⟨8, 3, [⟨2, false⟩]⟩ ⟨false, true⟩ =
      (.banCall 8 ::
        (AntiNuke.stripMutations ⟨7, 10, [⟨1, .text⟩], true⟩ ⟨8, 3, [⟨2, false⟩]⟩ ++
         ((if (true : Bool) then [] else [.createRoleCall]) ++
          (if (true || true : Bool) then
            .addRoleCall 8 ::
              AntiNuke.jailChannelEdits ⟨7, 10, [⟨1, .text⟩], true⟩
           else []))),
       .attackerJailed) :=
  ⟨(antinuke_punish_ban_mode _ _ _ _ (by decide) (by decide) (by decide)
      (by decide)).1 rfl,
   (antinuke_punish_ban_mode _ _ _ _ (by decide) (by decide) (by decide)
      (by decide)).2 rfl⟩

/-- **C1** counterexample: take a guild whose owner has id 7 and is not
whitelisted, and a `ban` event attributed to the owner with threshold
{count 1, interval 10}.  `_maybe_flag` has no owner check: the owner's event
IS recorded into the owner's rate-tracker window (count becomes 1, not 0)
and the punish step IS invoked against the owner — refuting the claim that
an owner's actions are stopped at the classify step, before tracking. -/
theorem antinuke_owner_classify_counterexample :
    ((AntiNuke.maybeFlag ⟨true, [], [], .jail⟩ ⟨1, 10⟩ AntiNuke.Tracker.empty
        1 (some 7) "ban" 0).1 ⟨1, 7, "ban"⟩).length = 1 ∧
    AntiNuke.Effect.punishInvoke 7 ∈
      (AntiNuke.maybeFlag ⟨true, [], [], .jail⟩ ⟨1, 10⟩ AntiNuke.Tracker.empty
        1 (some 7) "ban" 0).2 := by
  have hr : AntiNuke.recordWindow ([] : List ℚ) 0 (10 : ℚ)
      = ([0], 1) := by
    norm_num [AntiNuke.recordWindow, AntiNuke.trimWindow, List.dropWhile]
  constructor
  · simp [AntiNuke.maybeFlag, AntiNuke.isWhitelisted, AntiNuke.Tracker.record,
      AntiNuke.Tracker.empty, hr]
  · simp [AntiNuke.maybeFlag, AntiNuke.isWhitelisted, AntiNuke.Tracker.record,
      AntiNuke.Tracker.empty, hr]

/-- **C1** amended: whitelisted and wladmin actors never contribute to the
rate tracker and never reach the punish step (stopped at classify); the
guild owner's events, by contrast, are tracked and may invoke the punish
step, but `punish` itself never attempts any mutation against the owner
(or against a whitelisted actor), so no mutation is ever invoked against
any of the three as punishment. -/
theorem antinuke_exempt_actors (cfg : AntiNuke.GuildCfg)
    (t : AntiNuke.Threshold) (tr : AntiNuke.Tracker) (gid a : Nat)
    (key : String) (now : ℚ) (g : AntiNuke.GuildEnv) (att : AntiNuke.Member)
    (ext : AntiNuke.ExtOutcomes) :
    (AntiNuke.isWhitelisted cfg a = true →
      AntiNuke.maybeFlag cfg t tr gid (some a) key now
        = (tr, [.logWhitelisted a])) ∧
    (att.id = g.ownerId → (AntiNuke.punish cfg g att ext).1 = []) ∧
    (AntiNuke.isWhitelisted cfg att.id = true →
      (AntiNuke.punish cfg g att ext).1 = []) := by
  refine ⟨fun h => ?_, fun h => ?_, fun h => ?_⟩
  · simp [AntiNuke.maybeFlag, h]
  · obtain ⟨aid, top, roles⟩ := att
    have h' : aid = g.ownerId := h
    subst h'
    by_cases hwl : AntiNuke.isWhitelisted cfg g.ownerId
    · simp [AntiNuke.punish, hwl]
    · simp [AntiNuke.punish, hwl]
  · simp [AntiNuke.punish, h]

/-- Witness for the amended C1 at concrete inputs. -/
theorem antinuke_exempt_actors_witness :
    AntiNuke.maybeFlag ⟨true, [], [9], .jail⟩ ⟨3, 10⟩ AntiNuke.Tracker.empty
      1 (some 9) "kick" 0 = (AntiNuke.Tracker.empty, [.logWhitelisted 9]) ∧
    (AntiNuke.punish ⟨true, [], [], .jail⟩ ⟨7, 10, [], false⟩ ⟨7, 3, []⟩
      ⟨true, true⟩).1 = [] ∧
    (AntiNuke.punish ⟨true, [5], [], .jail⟩ ⟨7, 10, [], false⟩ ⟨5, 3, []⟩
      ⟨true, true⟩).1 = [] :=
  ⟨(antinuke_exempt_actors ⟨true, [], [9], .jail⟩ ⟨3, 10⟩
      AntiNuke.Tracker.empty 1 9 "kick" 0 ⟨7, 10, [], false⟩ ⟨7, 3, []⟩
      ⟨true, true⟩).1 (by decide),
   (antinuke_exempt_actors ⟨true, [], [], .jail⟩ ⟨3, 10⟩
      AntiNuke.Tracker.empty 1 9 "kick" 0 ⟨7, 10, [], false⟩ ⟨7, 3, []⟩
      ⟨true, true⟩).2.1 rfl,
   (antinuke_exempt_actors ⟨true, [5], [], .jail⟩ ⟨3, 10⟩
      AntiNuke.Tracker.empty 1 9 "kick" 0 ⟨7, 10, [], false⟩ ⟨5, 3, []⟩
      ⟨true, true⟩).2.2 (by decide)⟩

/-- **C8** counterexample: a webhook-created event whose audit attribution
finds no actor.  `on_webhooks_update` calls `_maybe_flag` only under
`if actor:`, so an unknown actor produces NO effect at all — in particular
no "actor unknown" log observation is emitted, refuting the claim that
every tracked action kind logs unknown actors. -/
theorem antinuke_webhook_unknown_counterexample :
    AntiNuke.handleWebhooksUpdate ⟨true, [], [], .jail⟩ ⟨5, 10⟩
      AntiNuke.Tracker.empty 1 none 0 = (AntiNuke.Tracker.empty, []) ∧
    AntiNuke.Effect.logActorUnknown ∉
      (AntiNuke.handleWebhooksUpdate ⟨true, [], [], .jail⟩ ⟨5, 10⟩
        AntiNuke.Tracker.empty 1 none 0).2 := by
  exact ⟨rfl, by simp [AntiNuke.handleWebhooksUpdate]⟩

/-- **C8** amended: on an enabled guild, an unknown actor never leads to a
punish invocation for any action kind; the handlers for channel
create/delete, role delete and ban emit exactly the "actor unknown" log
observation, while the webhook-create and kick handlers skip `_maybe_flag`
entirely and emit nothing. -/
theorem antinuke_unknown_actor (cfg : AntiNuke.GuildCfg)
    (t : AntiNuke.Threshold) (tr : AntiNuke.Tracker) (gid : Nat)
    (key : String) (now : ℚ) (hen : cfg.enabled = true) :
    AntiNuke.handleMutationEvent cfg t tr gid none key now
      = (tr, [.logActorUnknown]) ∧
    AntiNuke.handleWebhooksUpdate cfg t tr gid none now = (tr, []) ∧
    AntiNuke.handleMemberRemove cfg t tr gid none now = (tr, []) ∧
    (∀ x, AntiNuke.Effect.punishInvoke x ∉
      (AntiNuke.handleMutationEvent cfg t tr gid none key now).2) ∧
    (∀ x, AntiNuke.Effect.punishInvoke x ∉
      (AntiNuke.handleWebhooksUpdate cfg t tr gid none now).2) ∧
    (∀ x, AntiNuke.Effect.punishInvoke x ∉
      (AntiNuke.handleMemberRemove cfg t tr gid none now).2) := by
  refine ⟨?_, ?_, ?_, ?_, ?_, ?_⟩ <;>
    simp [AntiNuke.handleMutationEvent, AntiNuke.handleWebhooksUpdate,
      AntiNuke.handleMemberRemove, AntiNuke.maybeFlag, hen]

/-- Witness for the amended C8 at a concrete input. -/
theorem antinuke_unknown_actor_witness :
    AntiNuke.handleMutationEvent ⟨true, [], [], .jail⟩ ⟨3, 10⟩
      AntiNuke.Tracker.empty 1 none ("channel_delete") 0
      = (AntiNuke.Tracker.empty, [.logActorUnknown]) ∧
    AntiNuke.handleWebhooksUpdate ⟨true, [], [], .jail⟩ ⟨3, 10⟩
      AntiNuke.Tracker.empty 1 none 0 = (AntiNuke.Tracker.empty, []) ∧
    AntiNuke.handleMemberRemove ⟨true, [], [], .jail⟩ ⟨3, 10⟩
      AntiNuke.Tracker.empty 1 none 0 = (AntiNuke.Tracker.empty, []) ∧
    (∀ x, AntiNuke.Effect.punishInvoke x ∉
      (AntiNuke.handleMutationEvent ⟨true, [], [], .jail⟩ ⟨3, 10⟩
        AntiNuke.Tracker.empty 1 none ("channel_delete") 0).2) ∧
    (∀ x, AntiNuke.Effect.punishInvoke x ∉
      (AntiNuke.handleWebhooksUpdate ⟨true, [], [], .jail⟩ ⟨3, 10⟩
        AntiNuke.Tracker.empty 1 none 0).2) ∧
    (∀ x, AntiNuke.Effect.punishInvoke x ∉
      (AntiNuke.handleMemberRemove ⟨true, [], [], .jail⟩ ⟨3, 10⟩
        AntiNuke.Tracker.empty 1 none 0).2) :=
  antinuke_unknown_actor ⟨true, [], [], .jail⟩ ⟨3, 10⟩
    AntiNuke.Tracker.empty 1 "channel_delete" 0 rfl

/-- **C2**: for a non-exempt attributed actor and configured threshold
{count N, interval I}, a run of N recorded events all within I seconds of
each other invokes the punish step exactly at the Nth event: events 1..N-1
emit no punish invocation, event N does. -/
theorem antinuke_nth_event_first_punish (cfg : AntiNuke.GuildCfg)
    (t : AntiNuke.Threshold) (gid a : Nat) (key : String) (times : List ℚ)
    (hwl : AntiNuke.isWhitelisted cfg a = false)
    (hlen : times.length = t.count)
    (hwin : ∀ x ∈ times, ∀ y ∈ times, x - y ≤ (t.interval : ℚ)) :
    (AntiNuke.runEvents cfg t gid a key AntiNuke.Tracker.empty times).2.length
      = t.count ∧
    ∀ j (hj : j < (AntiNuke.runEvents cfg t gid a key AntiNuke.Tracker.empty
        times).2.length),
      (AntiNuke.Effect.punishInvoke a ∈
        (AntiNuke.runEvents cfg t gid a key AntiNuke.Tracker.empty times).2[j]
        ↔ j + 1 = t.count) := by
  have hE := AntiNuke.runEvents_effects cfg t gid a key hwl times
    AntiNuke.Tracker.empty [] rfl (by simpa using hwin)
  have hL : (AntiNuke.runEvents cfg t gid a key AntiNuke.Tracker.empty
      times).2.length = t.count := by
    rw [hE]; simpa using hlen
  refine ⟨hL, fun j hj => ?_⟩
  have hj' : j < times.length := by
    rw [hL] at hj; omega
  have hget := List.getElem_of_eq hE hj
  rw [hget]
  have hjr : j < (List.range times.length).length := by simpa using hj'
  rw [List.getElem_map, List.getElem_range]
  have hjc : j < t.count := by rw [← hlen]; exact hj'
  by_cases hc : t.count ≤ j + 1
  · simp only [AntiNuke.expectedEffects, List.length_nil, Nat.zero_add,
      if_pos hc]
    simp only [List.singleton_append, List.mem_cons, List.mem_singleton]
    constructor
    · intro hmem
      omega
    · intro h
      simp
  · simp only [AntiNuke.expectedEffects, List.length_nil, Nat.zero_add,
      if_neg hc]
    simp only [List.append_nil, List.mem_singleton]
    constructor
    · intro hmem
      exact absurd hmem (by simp)
    · intro h
      omega

/-- Witness for C2: threshold {count 2, interval 10}, two events at times
0 and 1; the first event does not invoke punish, the second does. -/
theorem antinuke_nth_event_first_punish_witness :
    (AntiNuke.runEvents ⟨true, [], [], .jail⟩ ⟨2, 10⟩ 1 4 "channel_delete"
      AntiNuke.Tracker.empty [0, 1]).2.length = 2 ∧
    AntiNuke.Effect.punishInvoke 4 ∉
      (AntiNuke.runEvents ⟨true, [], [], .jail⟩ ⟨2, 10⟩ 1 4 "channel_delete"
        AntiNuke.Tracker.empty [0, 1]).2.getD 0 [] ∧
    AntiNuke.Effect.punishInvoke 4 ∈
      (AntiNuke.runEvents ⟨true, [], [], .jail⟩ ⟨2, 10⟩ 1 4 "channel_delete"
        AntiNuke.Tracker.empty [0, 1]).2.getD 1 [] := by
  have H := antinuke_nth_event_first_punish ⟨true, [], [], .jail⟩ ⟨2, 10⟩ 1 4
    "channel_delete" [0, 1] (by decide) (by rfl)
    (by
      intro x hx y hy
      simp only [List.mem_cons, List.not_mem_nil, or_false] at hx hy
      rcases hx with h | h <;> rcases hy with h2 | h2 <;> subst h <;>
        subst h2 <;> norm_num)
  have h0 : 0 < (AntiNuke.runEvents ⟨true, [], [], .jail⟩ ⟨2, 10⟩ 1 4
      "channel_delete" AntiNuke.Tracker.empty [0, 1]).2.length := by
    rw [H.1]; norm_num
  have h1 : 1 < (AntiNuke.runEvents ⟨true, [], [], .jail⟩ ⟨2, 10⟩ 1 4
      "channel_delete" AntiNuke.Tracker.empty [0, 1]).2.length := by
    rw [H.1]; norm_num
  refine ⟨H.1, ?_, ?_⟩
  · rw [List.getD_eq_getElem _ _ h0]
    intro hmem
    have h := (H.2 0 h0).mp hmem
    norm_num at h
  · rw [List.getD_eq_getElem _ _ h1]
    exact (H.2 1 h1).mpr rfl

/-- **C5**: `_burst_reclaim` returns true iff some set-vanity-code attempt
begins (and succeeds) before the deadline; the inter-attempt delay starts
at 50 ms, is multiplied by 1.5 and capped at 250 ms after each failure,
hence non-decreasing and never above 250 ms. -/
theorem antinuke_burst_reclaim_spec (outcomes : Nat → Bool) (seconds : ℚ) :
    (AntiNuke.burstReclaim outcomes seconds = true ↔
      ∃ i, AntiNuke.attemptTime i < seconds ∧ outcomes i = true) ∧
    AntiNuke.vanityDelay 0 = 1 / 20 ∧
    (∀ n, AntiNuke.vanityDelay (n + 1) =
      min (AntiNuke.vanityDelay n * (3 / 2)) (1 / 4)) ∧
    (∀ n, AntiNuke.vanityDelay n ≤ AntiNuke.vanityDelay (n + 1)) ∧
    (∀ n, AntiNuke.vanityDelay n ≤ 1 / 4) := by
  refine ⟨⟨fun h => ?_, fun h => ?_⟩, rfl, fun n => rfl,
    AntiNuke.vanityDelay_mono, AntiNuke.vanityDelay_ub⟩
  · obtain ⟨j, _, hj, hoj⟩ := AntiNuke.burstReclaimFrom_true_exists outcomes
      seconds (⌈seconds * 20⌉₊ + 1) 0 (by omega) h
    exact ⟨j, hj, hoj⟩
  · obtain ⟨i, hi, ho⟩ := h
    exact AntiNuke.burstReclaimFrom_true_of_exists outcomes seconds i 0 i
      (by omega) (Nat.zero_le _) hi ho

/-- **C6**: detecting a drift sets `elevated_until` to 20 seconds past the
marked moment; any later iteration (absent further drift) sleeps 0.25 s if
its sleep decision happens before that deadline and 2.0 s otherwise; and
with no drift ever detected every iteration sleeps 2.0 s. -/
theorem antinuke_sentinel_interval (st : Option ℚ) (d : AntiNuke.SentinelIter)
    (post : List AntiNuke.SentinelIter) (it : AntiNuke.SentinelIter)
    (hd : d.drift = true) (hpost : ∀ x ∈ post, x.drift = false)
    (hit : it.drift = false) :
    AntiNuke.stepElevated st d = some (d.tMark + 20) ∧
    AntiNuke.sentinelSleep
        (AntiNuke.elevatedAfter (AntiNuke.stepElevated st d) post) it =
      (if it.tSleep < d.tMark + 20 then 1 / 4 else 2) ∧
    AntiNuke.sentinelSleep (AntiNuke.elevatedAfter none post) it = 2 := by
  have h1 : AntiNuke.stepElevated st d = some (d.tMark + 20) := by
    simp [AntiNuke.stepElevated, hd]
  refine ⟨h1, ?_, ?_⟩
  · rw [h1, AntiNuke.elevatedAfter_no_drift _ post hpost]
    simp [AntiNuke.sentinelSleep, AntiNuke.stepElevated, hit]
  · rw [AntiNuke.elevatedAfter_no_drift none post hpost]
    simp [AntiNuke.sentinelSleep, AntiNuke.stepElevated, hit]

/-- Witness for C6: a drift marked at time 0, no further drift, and a sleep
decision at time 5 (inside the 20 s window — fast) and the no-drift case. -/
theorem antinuke_sentinel_interval_witness :
    AntiNuke.stepElevated none ⟨true, 0, 0⟩ = some (0 + 20) ∧
    AntiNuke.sentinelSleep
        (AntiNuke.elevatedAfter (AntiNuke.stepElevated none ⟨true, 0, 0⟩) [])
        ⟨false, 0, 5⟩ = 1 / 4 ∧
    AntiNuke.sentinelSleep (AntiNuke.elevatedAfter none []) ⟨false, 0, 5⟩
      = 2 := by
  have H := antinuke_sentinel_interval none ⟨true, 0, 0⟩ [] ⟨false, 0, 5⟩ rfl
    (by intro x hx; simp at hx) rfl
  refine ⟨H.1, ?_, H.2.2⟩
  rw [H.2.1]
  norm_num

/-- **C7** counterexample: a text channel whose pre-lock default-role
overwrite explicitly denied `connect`.  Lock's kwargs-style
`set_permissions` replaces the whole overwrite (clearing `connect` to
inherit) and unlock restores only view/send on text channels, so the round
trip ends with `connect` = inherit instead of the pre-lock deny — refuting
exact tri-state restoration of view/send/connect for every channel. -/
theorem antinuke_lock_unlock_counterexample :
    ((AntiNuke.lockUnlock .text ⟨none, none, some false, none, none, none⟩).map
        fun r => r.connect) = some none ∧
    ((AntiNuke.lockUnlock .text ⟨none, none, some false, none, none, none⟩).map
        fun r => r.connect) ≠
      some (AntiNuke.Overwrite.connect
        ⟨none, none, some false, none, none, none⟩) := by
  exact ⟨by decide, by decide⟩

/-- **C7** amended: for every snapshotted channel the round trip restores
exactly the captured tri-states that unlock writes back — `view_channel` on
every kind, `send_messages` on text and category channels, `connect` on
voice and category channels (including values that were already deny) —
while the remaining captured field (`connect` on text, `send_messages` on
voice) ends at inherit, cleared by lock's overwrite replacement and not
restored. -/
theorem antinuke_lock_unlock_restores (ow : AntiNuke.Overwrite) :
    ((AntiNuke.lockUnlock .text ow).map fun r => r.viewChannel)
        = some ow.viewChannel ∧
    ((AntiNuke.lockUnlock .text ow).map fun r => r.sendMessages)
        = some ow.sendMessages ∧
    ((AntiNuke.lockUnlock .text ow).map fun r => r.connect) = some none ∧
    ((AntiNuke.lockUnlock .voice ow).map fun r => r.viewChannel)
        = some ow.viewChannel ∧
    ((AntiNuke.lockUnlock .voice ow).map fun r => r.connect)
        = some ow.connect ∧
    ((AntiNuke.lockUnlock .voice ow).map fun r => r.sendMessages)
        = some none ∧
    ((AntiNuke.lockUnlock .category ow).map fun r => r.viewChannel)
        = some ow.viewChannel ∧
    ((AntiNuke.lockUnlock .category ow).map fun r => r.sendMessages)
        = some ow.sendMessages ∧
    ((AntiNuke.lockUnlock .category ow).map fun r => r.connect)
        = some ow.connect := by
  have hcb : ∀ x : Option Bool, AntiNuke.clampBool x = x := by
    intro x; cases x <;> rfl
  refine ⟨?_, ?_, ?_, ?_, ?_, ?_, ?_, ?_, ?_⟩ <;>
    simp [AntiNuke.lockUnlock, AntiNuke.lockChannel, AntiNuke.unlockChannel,
      AntiNuke.snapshotOf, AntiNuke.lockOverwrite, hcb]

/-- **C10**: lock snapshots only view/send/connect but additionally denies
`add_reactions` on text channels and `speak`/`stream` on voice channels;
unlock restores only the snapshotted fields, so after the lock/unlock round
trip those extra overwrites remain deny instead of reverting to their
pre-lock values. -/
theorem antinuke_lock_frame_effect (ow : AntiNuke.Overwrite) :
    AntiNuke.lockChannel .text ow
        = some (AntiNuke.snapshotOf ow, AntiNuke.lockOverwrite .text) ∧
    AntiNuke.lockChannel .voice ow
        = some (AntiNuke.snapshotOf ow, AntiNuke.lockOverwrite .voice) ∧
    AntiNuke.snapshotOf ow
        = ⟨ow.viewChannel, ow.sendMessages, ow.connect⟩ ∧
    (AntiNuke.lockOverwrite .text).addReactions = some false ∧
    (AntiNuke.lockOverwrite .voice).speak = some false ∧
    (AntiNuke.lockOverwrite .voice).stream = some false ∧
    ((AntiNuke.lockUnlock .text ow).map fun r => r.addReactions)
        = some (some false) ∧
    ((AntiNuke.lockUnlock .voice ow).map fun r => r.speak)
        = some (some false) ∧
    ((AntiNuke.lockUnlock .voice ow).map fun r => r.stream)
        = some (some false) := by
  refine ⟨rfl, rfl, rfl, rfl, rfl, rfl, ?_, ?_, ?_⟩ <;>
    simp [AntiNuke.lockUnlock, AntiNuke.lockChannel, AntiNuke.unlockChannel,
      AntiNuke.snapshotOf, AntiNuke.lockOverwrite]
